import Mathlib

/-!
Verification of `crater_functions.py` (eb-mars/Cratering).

The Python code is embedded shallowly over `ℚ`:
* real-exponent powers (`a ** b` with fractional `b`) are abstracted by an
  explicit power function `P : ℚ → ℚ → ℚ` passed as a parameter (the actual
  real power is strictly positive on the inputs the code feeds it, which is
  the only property some proofs need, taken as a hypothesis);
* `log10`, `10 ** x`, `np.log` and the opaque craterstats evaluators
  (`pf.evaluate("cumulative", ·)`, `chronology.phi`) are likewise abstract
  function parameters;
* the numpy random draws are modelled by a stream `rng : ℕ → ℚ` consumed in
  order, and the single lognormal draw of `crater_depth` by a parameter
  `Znoise`;
* elevation fields and distance arrays are `List ℚ` indexed like the numpy
  arrays; the unbounded `while` loops get an explicit fuel argument and
  return `Option` (`none` = the loop did not finish within the fuel).
-/

namespace Cratering

/-- Shape parameters computed at the top of `crater_depth`
(lines 128-145 of `crater_functions.py`): crater depth `H1`, max rim
height `H2`, interior shape exponent `m`, exterior shape exponent `n`. -/
structure CraterShape where
  H1 : ℚ
  H2 : ℚ
  m : ℚ
  n : ℚ
  deriving Repr, DecidableEq

/-- Lines 130-145 of `crater_depth`: the simple/complex regime switch on the
diameter in meters (`Dm`), followed by the exterior exponent
`n = 2 - (H2 / ((H2-H1)/2 + H1/(m+2)))`.  `P a b` stands for the Python
`a ** b` with real exponent. -/
def crater_shape (P : ℚ → ℚ → ℚ) (Dm : ℚ) : CraterShape :=
  let HHm :=
    if Dm ≤ 7000 then
      (2.54 * P Dm 0.67, 1.93 * P Dm 0.52, 0.73 * P Dm 0.11)
    else
      (12.20 * P Dm 0.49, 0.79 * P Dm 0.6, 0.64 * P Dm 0.13)
  let H1 := HHm.1
  let H2 := HHm.2.1
  let m := HHm.2.2
  let H2H1 := H2 - H1
  ⟨H1, H2, m, 2 - (H2 / (H2H1 / 2 + H1 / (m + 2)))⟩

/-- Per-node update of the elevation field: node `i` of `z` is replaced by
`f z[i] d[i]`.  Nodes beyond the length of the distance array keep their
elevation (the Python fancy-indexed `+=` only ever touches indices of `d`;
the claims are stated for arrays of matching length). -/
def applyNodes (f : ℚ → ℚ → ℚ) : List ℚ → List ℚ → List ℚ
  | [], _ => []
  | zs, [] => zs
  | zi :: zs, di :: ds => f zi di :: applyNodes f zs ds

/-- Per-node elevation increment: node `i` yields `g z[i] d[i]`, and `0`
beyond the distance array.  Same traversal as `applyNodes`. -/
def deltaNodes (g : ℚ → ℚ → ℚ) : List ℚ → List ℚ → List ℚ
  | [], _ => []
  | _ :: zs, [] => 0 :: deltaNodes g zs []
  | zi :: zs, di :: ds => g zi di :: deltaNodes g zs ds

/-- The elevations of the nodes inside the boundary `R`:
`Z_in = mg.at_node['topographic__elevation'][in_idx]` where
`in_idx = np.where(d <= R)[0]`. -/
def insideZ (z d : List ℚ) (R : ℚ) : List ℚ :=
  ((z.zip d).filter (fun p => decide (p.2 ≤ R))).map Prod.fst

/-- The elevations of the nodes outside the boundary `R`:
`Z_out = mg.at_node['topographic__elevation'][out_idx]` where
`out_idx = np.where(d > R)[0]`. -/
def outsideZ (z d : List ℚ) (R : ℚ) : List ℚ :=
  ((z.zip d).filter (fun p => decide (¬ p.2 ≤ R))).map Prod.fst

/-- `np.average` of a list: sum divided by length.  (For an empty list
numpy yields NaN; the `ℚ` division-by-zero convention renders it 0
instead — none of the verified claims evaluates an average of an empty
partition.) -/
def avgOf (l : List ℚ) : ℚ := l.sum / (l.length : ℚ)

/-- Lines 120-203 of `crater_functions.py`, the body of `crater_depth`.
`P a b` models the Python real power `a ** b`, `Znoise` the single
`rn_gen.lognormal(...)` draw, `z` the elevation field
(`mg.at_node['topographic__elevation']`), `d` the distance array and
`diameter_km` the input diameter (converted to meters internally).
The numpy partition into `in_idx`/`out_idx` and the two fancy-indexed
`+=` statements amount to the per-node update below: each node falls in
exactly one partition and receives its partition's increment. -/
def crater_depth (P : ℚ → ℚ → ℚ) (Znoise : ℚ) (z d : List ℚ)
    (diameter_km : ℚ) (rim : Bool) : List ℚ :=
  let I : ℚ := 1
  let diameter := diameter_km * 1000
  let radius := diameter / 2
  let s := crater_shape P diameter
  let H2H1 := s.H2 - s.H1
  if rim then
    let avgin := avgOf (insideZ z d radius)
    let avgout := avgOf (outsideZ z d radius)
    applyNodes (fun zi di =>
      if di ≤ radius then
        let DH_in := H2H1 + Znoise * s.H1 * P (2 * di / diameter) s.m
        let E_ref_in := zi
        zi + (DH_in + 1 * (E_ref_in - zi) * (1 - I * (di / radius) ^ 2))
      else
        let DH_out := s.H2 * P (2 * di / diameter) (-s.n)
        let E_ref_out := avgin + avgout * P (di / radius) (-s.n)
        let G := min (1 - I) (DH_out / s.H2)
        zi + (DH_out + G * (E_ref_out - zi))) z d
  else
    let avgin := avgOf (insideZ z d (radius * 0.9))
    applyNodes (fun zi di =>
      if di ≤ radius * 0.9 then
        let DH_in := H2H1 + s.H1 * P (2 * di / diameter) s.m
        let E_ref_in := zi
        zi + (DH_in + 1 * (E_ref_in - zi) * (1 - I * (di / radius) ^ 2))
      else
        zi + 0) z d

/-- The per-node elevation increments (`DE_in`, `DE_out`, or the `+= 0`
outside an unrimmed crater) that `crater_depth` adds: same traversal and
branch bodies as `crater_depth` without the leading `zi +`. -/
def crater_delta (P : ℚ → ℚ → ℚ) (Znoise : ℚ) (z d : List ℚ)
    (diameter_km : ℚ) (rim : Bool) : List ℚ :=
  let I : ℚ := 1
  let diameter := diameter_km * 1000
  let radius := diameter / 2
  let s := crater_shape P diameter
  let H2H1 := s.H2 - s.H1
  if rim then
    let avgin := avgOf (insideZ z d radius)
    let avgout := avgOf (outsideZ z d radius)
    deltaNodes (fun zi di =>
      if di ≤ radius then
        let DH_in := H2H1 + Znoise * s.H1 * P (2 * di / diameter) s.m
        let E_ref_in := zi
        DH_in + 1 * (E_ref_in - zi) * (1 - I * (di / radius) ^ 2)
      else
        let DH_out := s.H2 * P (2 * di / diameter) (-s.n)
        let E_ref_out := avgin + avgout * P (di / radius) (-s.n)
        let G := min (1 - I) (DH_out / s.H2)
        DH_out + G * (E_ref_out - zi)) z d
  else
    deltaNodes (fun zi di =>
      if di ≤ radius * 0.9 then
        let DH_in := H2H1 + s.H1 * P (2 * di / diameter) s.m
        let E_ref_in := zi
        DH_in + 1 * (E_ref_in - zi) * (1 - I * (di / radius) ^ 2)
      else
        0) z d

/-- `np.linspace(a, b, 9)`: nine equally spaced samples from `a` to `b`
inclusive (lines 238 and 242). -/
def linspace9 (a b : ℚ) : List ℚ :=
  (List.range 9).map (fun j => a + (b - a) * j / 8)

/-- Interior of `np.interp t xp fp` once `xp.head ≤ t`: walk the knots and
interpolate linearly on the bracketing segment, clamping to the last value
past the end.  (numpy documents this behaviour for increasing `xp` and
leaves non-monotone `xp` unspecified.) -/
def npInterpGo (t : ℚ) : List ℚ → List ℚ → ℚ
  | [_], fl :: _ => fl
  | x0 :: x1 :: xs, f0 :: f1 :: fs =>
    if t < x1 then f0 + (f1 - f0) * (t - x0) / (x1 - x0)
    else npInterpGo t (x1 :: xs) (f1 :: fs)
  | _, _ => 0

/-- `np.interp(t, xp, fp)` (line 244): clamp to `fp.head` below the first
knot, otherwise interpolate by `npInterpGo`. -/
def npInterp (t : ℚ) (xp fp : List ℚ) : ℚ :=
  match xp, fp with
  | x0 :: xs, f0 :: fs => if t < x0 then f0 else npInterpGo t (x0 :: xs) (f0 :: fs)
  | _, _ => 0

/-- `np.searchsorted(l, v)` with the default `side='left'` (line 246): the
first index whose element is not `< v`, i.e. the left insertion point for a
sorted `l`. -/
def npSearchsorted (l : List ℚ) (v : ℚ) : ℕ :=
  match l with
  | [] => 0
  | a :: as => if a < v then npSearchsorted as v + 1 else 0

/-- The fancy indexing `x0[[q, q - 1]]` of line 248: `q - 1` wraps to the
last element when `q = 0` (Python negative indexing), and an index `q`
past the end raises `IndexError`, modelled as `none`. -/
def fancyPair (x0 : List ℚ) (q : ℕ) : Option (ℚ × ℚ) :=
  if q < x0.length then
    some (x0.getD q 0, if q = 0 then x0.getD (x0.length - 1) 0 else x0.getD (q - 1) 0)
  else none

/-- The `while True` loop of `crater_production_function_inverse`
(lines 241-251).  `f x` models `log10(pf.evaluate("cumulative", 10**x))`,
`log_y = log10(y)`, `count` the Python iteration counter, and `xr` the
current `xrange` bracket.  The loop breaks when `|y1 - log_y| < tol` or
`count > 99` after the increment; `fuel` makes the recursion structural
(the canonical entry `fuel = 100` can never exhaust it, since the counter
check breaks first).  Returns the final `x` with the number of iterations
executed, or `none` on an `IndexError`. -/
def invLoopAux (f : ℚ → ℚ) (log_y tol : ℚ) : ℕ → ℕ → ℚ × ℚ → Option (ℚ × ℕ)
  | 0, _, _ => none
  | fuel + 1, count, xr =>
    let x0 := linspace9 xr.2 xr.1
    let y0 := x0.map f
    let x := npInterp log_y y0 x0
    let y1 := f x
    let q := npSearchsorted y0 log_y
    match fancyPair x0 q with
    | none => none
    | some xr2 =>
      if |y1 - log_y| < tol ∨ count + 1 > 99 then some (x, count + 1)
      else invLoopAux f log_y tol fuel (count + 1) xr2

/-- `crater_production_function_inverse(pf, irange, y, tol)`
(lines 212-253): work in log10 space over the bracket
`(log10 irange[0], log10 irange[1])` and return `10 ** x` for the final
estimate `x` of the iteration loop.  `pfEval` models
`pf.evaluate("cumulative", ·)`, `log10` and `tenPow` the base-10 log and
power. -/
def crater_production_function_inverse (pfEval log10 tenPow : ℚ → ℚ)
    (irange : ℚ × ℚ) (y tol : ℚ) : Option ℚ :=
  let log_y := log10 y
  let xrange := (log10 irange.1, log10 irange.2)
  (invLoopAux (fun x => log10 (pfEval (tenPow x))) log_y tol 100 0 xrange).map
    (fun p => tenPow p.1)

/-- Lines 301-311 of `generate_CSFD_from_production_function`: the diameter
range defaults to `[cell_size, production_function.range[1]]` when no
`size_interval` is given; an explicit interval outside the production
function's range only sets a warning flag (`warnings.warn`, non-fatal). -/
def csfd_diameter_range (pf_range : ℚ × ℚ) (cell_size : ℚ)
    (size_interval : Option (ℚ × ℚ)) : (ℚ × ℚ) × Bool :=
  match size_interval with
  | none => ((cell_size, pf_range.2), false)
  | some r => (r, if r.1 < pf_range.1 ∨ r.2 > pf_range.2 then true else false)

/-- The `while t <= time_interval[0]` loop of
`generate_CSFD_from_production_function` (lines 320-341).  `phi` models
`chronology_function.phi`, `inv` the call to
`crater_production_function_inverse` for the fixed production function and
diameter range, `ln` is `np.log`, and `rng` the stream of
`rn_gen.uniform(0,1)` draws consumed in order starting at index `i`.
`fuel` bounds the otherwise unbounded loop; `none` means the fuel ran out
with `t` still `≤ tstart`. -/
def genLoop (phi inv ln : ℚ → ℚ) (N1 N2 N1_ratio Area : ℚ) (poisson : Bool)
    (tstart : ℚ) (rng : ℕ → ℚ) : ℕ → ℚ → ℕ → List ℚ → Option (List ℚ)
  | 0, t, _, acc => if t ≤ tstart then none else some acc
  | fuel + 1, t, i, acc =>
    if t ≤ tstart then
      let u := rng i
      let y := u * (N1 - N2) + N2
      let d := inv y
      let lam := phi t * N1_ratio * Area
      let dt := if poisson then -(ln (rng (i + 1))) / lam else 1 / lam
      let i2 := if poisson then i + 2 else i + 1
      genLoop phi inv ln N1 N2 N1_ratio Area poisson tstart rng fuel (t + dt) i2
        (acc ++ [d])
    else some acc

/-- `generate_CSFD_from_production_function(time_interval, size_interval,
domain_area, cell_size, poisson_intervals)` (lines 256-341).  The opaque
craterstats evaluators enter as `pfEval` (cumulative production function),
`pf_range` (its calibrated diameter range) and `phi` (chronology); `inv`
stands for `crater_production_function_inverse` applied to the production
function and a diameter range.  Setup computes
`N = [pfEval 1, pfEval dmin, pfEval dmax]` and `N1_ratio = N[1]/N[0]`,
then the time loop runs from `t = time_interval[1]`.  Returns the warning
flag together with the generated diameter list. -/
def generate_CSFD_from_production_function (pfEval : ℚ → ℚ) (pf_range : ℚ × ℚ)
    (phi ln : ℚ → ℚ) (inv : ℚ × ℚ → ℚ → ℚ) (time_interval : ℚ × ℚ)
    (size_interval : Option (ℚ × ℚ)) (domain_area cell_size : ℚ)
    (poisson_intervals : Bool) (rng : ℕ → ℚ) (fuel : ℕ) :
    Bool × Option (List ℚ) :=
  let setup := csfd_diameter_range pf_range cell_size size_interval
  let diameter_range := setup.1
  let warned := setup.2
  let N0 := pfEval 1
  let N1 := pfEval diameter_range.1
  let N2 := pfEval diameter_range.2
  let N1_ratio := N1 / N0
  (warned,
    genLoop phi (inv diameter_range) ln N1 N2 N1_ratio domain_area
      poisson_intervals time_interval.1 rng fuel time_interval.2 0 [])

theorem applyNodes_nil_right (f : ℚ → ℚ → ℚ) (z : List ℚ) :
    applyNodes f z [] = z := by
  cases z <;> rfl

theorem applyNodes_length (f : ℚ → ℚ → ℚ) :
    ∀ z d : List ℚ, (applyNodes f z d).length = z.length := by
  intro z
  induction z with
  | nil => intro d; cases d <;> rfl
  | cons zi zs ih =>
    intro d
    cases d with
    | nil => rfl
    | cons di ds => simp [applyNodes, ih]

theorem applyNodes_getD (f : ℚ → ℚ → ℚ) :
    ∀ (z d : List ℚ) (i : ℕ), i < z.length → i < d.length →
      (applyNodes f z d).getD i 0 = f (z.getD i 0) (d.getD i 0) := by
  intro z
  induction z with
  | nil => intro d i hi _; simp at hi
  | cons zi zs ih =>
    intro d i hi hd
    cases d with
    | nil => simp at hd
    | cons di ds =>
      cases i with
      | zero => rfl
      | succ j =>
        simpa [applyNodes] using
          ih ds j (Nat.lt_of_succ_lt_succ hi) (Nat.lt_of_succ_lt_succ hd)

theorem applyNodes_getD_beyond (f : ℚ → ℚ → ℚ) :
    ∀ (z d : List ℚ) (i : ℕ), d.length ≤ i →
      (applyNodes f z d).getD i 0 = z.getD i 0 := by
  intro z
  induction z with
  | nil => intro d i _; cases d <;> rfl
  | cons zi zs ih =>
    intro d i hd
    cases d with
    | nil => rfl
    | cons di ds =>
      cases i with
      | zero => simp at hd
      | succ j =>
        simpa [applyNodes] using ih ds j (Nat.le_of_succ_le_succ hd)

theorem applyNodes_eq_zipWith_deltaNodes (F g : ℚ → ℚ → ℚ)
    (h : ∀ zi di, F zi di = zi + g zi di) :
    ∀ z d : List ℚ,
      applyNodes F z d = List.zipWith (· + ·) z (deltaNodes g z d) := by
  intro z
  induction z with
  | nil => intro d; cases d <;> rfl
  | cons zi zs ih =>
    intro d
    cases d with
    | nil =>
      have h2 := ih []
      rw [applyNodes_nil_right] at h2
      show zi :: zs = List.zipWith (· + ·) (zi :: zs) (0 :: deltaNodes g zs [])
      rw [List.zipWith_cons_cons, add_zero, ← h2]
    | cons di ds => simp [applyNodes, deltaNodes, ih, h]

/-- C1: `crater_depth` computes its shape parameters by the simple/complex
regime switch on the diameter in meters `Dm = diameter_km * 1000`
(`H1,H2,m` from the `Dm ≤ 7000` formulas, otherwise from the `Dm > 7000`
formulas), and the exterior exponent is
`n = 2 - H2 / ((H2-H1)/2 + H1/(m+2))` computed exactly from those values. -/
theorem crater_shape_regime_switch (P : ℚ → ℚ → ℚ) (dkm : ℚ) (hpos : 0 < dkm) :
    (dkm * 1000 ≤ 7000 →
      crater_shape P (dkm * 1000) =
        ⟨2.54 * P (dkm * 1000) 0.67, 1.93 * P (dkm * 1000) 0.52,
         0.73 * P (dkm * 1000) 0.11,
         2 - (1.93 * P (dkm * 1000) 0.52 /
           ((1.93 * P (dkm * 1000) 0.52 - 2.54 * P (dkm * 1000) 0.67) / 2 +
             2.54 * P (dkm * 1000) 0.67 / (0.73 * P (dkm * 1000) 0.11 + 2)))⟩) ∧
    (7000 < dkm * 1000 →
      crater_shape P (dkm * 1000) =
        ⟨12.20 * P (dkm * 1000) 0.49, 0.79 * P (dkm * 1000) 0.6,
         0.64 * P (dkm * 1000) 0.13,
         2 - (0.79 * P (dkm * 1000) 0.6 /
           ((0.79 * P (dkm * 1000) 0.6 - 12.20 * P (dkm * 1000) 0.49) / 2 +
             12.20 * P (dkm * 1000) 0.49 / (0.64 * P (dkm * 1000) 0.13 + 2)))⟩) := by
  constructor
  · intro h
    simp [crater_shape, h]
  · intro h
    simp [crater_shape, not_le.mpr h]

/-- Witness for `crater_shape_regime_switch` at the concrete power function
`fun _ _ => 1` and diameter 2 km (simple regime) discharging `0 < 2`. -/
theorem crater_shape_regime_switch_witness :
    (0 : ℚ) < 2 ∧
    (((2 : ℚ) * 1000 ≤ 7000 →
      crater_shape (fun _ _ => 1) (2 * 1000) =
        ⟨2.54 * 1, 1.93 * 1, 0.73 * 1,
         2 - (1.93 * 1 / ((1.93 * 1 - 2.54 * 1) / 2 + 2.54 * 1 / (0.73 * 1 + 2)))⟩) ∧
     (7000 < (2 : ℚ) * 1000 →
      crater_shape (fun _ _ => 1) (2 * 1000) =
        ⟨12.20 * 1, 0.79 * 1, 0.64 * 1,
         2 - (0.79 * 1 / ((0.79 * 1 - 12.20 * 1) / 2 + 12.20 * 1 / (0.64 * 1 + 2)))⟩)) :=
  ⟨by norm_num, crater_shape_regime_switch (fun _ _ => 1) 2 (by norm_num)⟩

theorem crater_depth_false_eq (P : ℚ → ℚ → ℚ) (Zn : ℚ) (z d : List ℚ) (dkm : ℚ) :
    crater_depth P Zn z d dkm false =
      applyNodes (fun zi di =>
        if di ≤ dkm * 1000 / 2 * 0.9 then
          zi + ((crater_shape P (dkm * 1000)).H2 - (crater_shape P (dkm * 1000)).H1 +
            (crater_shape P (dkm * 1000)).H1 * P (2 * di / (dkm * 1000))
              (crater_shape P (dkm * 1000)).m +
            1 * (zi - zi) * (1 - 1 * (di / (dkm * 1000 / 2)) ^ 2))
        else zi + 0) z d := rfl

theorem crater_delta_false_eq (P : ℚ → ℚ → ℚ) (Zn : ℚ) (z d : List ℚ) (dkm : ℚ) :
    crater_delta P Zn z d dkm false =
      deltaNodes (fun zi di =>
        if di ≤ dkm * 1000 / 2 * 0.9 then
          (crater_shape P (dkm * 1000)).H2 - (crater_shape P (dkm * 1000)).H1 +
            (crater_shape P (dkm * 1000)).H1 * P (2 * di / (dkm * 1000))
              (crater_shape P (dkm * 1000)).m +
            1 * (zi - zi) * (1 - 1 * (di / (dkm * 1000 / 2)) ^ 2)
        else 0) z d := rfl

theorem crater_depth_true_eq (P : ℚ → ℚ → ℚ) (Zn : ℚ) (z d : List ℚ) (dkm : ℚ) :
    crater_depth P Zn z d dkm true =
      applyNodes (fun zi di =>
        if di ≤ dkm * 1000 / 2 then
          zi + ((crater_shape P (dkm * 1000)).H2 - (crater_shape P (dkm * 1000)).H1 +
            Zn * (crater_shape P (dkm * 1000)).H1 * P (2 * di / (dkm * 1000))
              (crater_shape P (dkm * 1000)).m +
            1 * (zi - zi) * (1 - 1 * (di / (dkm * 1000 / 2)) ^ 2))
        else
          zi + ((crater_shape P (dkm * 1000)).H2 * P (2 * di / (dkm * 1000))
              (-(crater_shape P (dkm * 1000)).n) +
            min (1 - 1)
              ((crater_shape P (dkm * 1000)).H2 * P (2 * di / (dkm * 1000))
                  (-(crater_shape P (dkm * 1000)).n) / (crater_shape P (dkm * 1000)).H2) *
              (avgOf (insideZ z d (dkm * 1000 / 2)) +
                avgOf (outsideZ z d (dkm * 1000 / 2)) * P (di / (dkm * 1000 / 2))
                  (-(crater_shape P (dkm * 1000)).n) - zi))) z d := rfl

theorem crater_delta_true_eq (P : ℚ → ℚ → ℚ) (Zn : ℚ) (z d : List ℚ) (dkm : ℚ) :
    crater_delta P Zn z d dkm true =
      deltaNodes (fun zi di =>
        if di ≤ dkm * 1000 / 2 then
          (crater_shape P (dkm * 1000)).H2 - (crater_shape P (dkm * 1000)).H1 +
            Zn * (crater_shape P (dkm * 1000)).H1 * P (2 * di / (dkm * 1000))
              (crater_shape P (dkm * 1000)).m +
            1 * (zi - zi) * (1 - 1 * (di / (dkm * 1000 / 2)) ^ 2)
        else
          (crater_shape P (dkm * 1000)).H2 * P (2 * di / (dkm * 1000))
              (-(crater_shape P (dkm * 1000)).n) +
            min (1 - 1)
              ((crater_shape P (dkm * 1000)).H2 * P (2 * di / (dkm * 1000))
                  (-(crater_shape P (dkm * 1000)).n) / (crater_shape P (dkm * 1000)).H2) *
              (avgOf (insideZ z d (dkm * 1000 / 2)) +
                avgOf (outsideZ z d (dkm * 1000 / 2)) * P (di / (dkm * 1000 / 2))
                  (-(crater_shape P (dkm * 1000)).n) - zi)) z d := rfl

theorem crater_shape_H2_pos (P : ℚ → ℚ → ℚ) (hP : ∀ x y, 0 < P x y) (Dm : ℚ) :
    0 < (crater_shape P Dm).H2 := by
  by_cases h : Dm ≤ 7000
  · have e : (crater_shape P Dm).H2 = 1.93 * P Dm 0.52 := by simp [crater_shape, h]
    rw [e]; exact mul_pos (by norm_num) (hP _ _)
  · have e : (crater_shape P Dm).H2 = 0.79 * P Dm 0.6 := by simp [crater_shape, h]
    rw [e]; exact mul_pos (by norm_num) (hP _ _)

/-- C2: with `rim = False`, `crater_depth` leaves every node whose distance
from the crater center exceeds `0.9 * radius` exactly unchanged (its
elevation delta is exactly 0); only nodes with distance `≤ 0.9 * radius`
are excavated. -/
theorem crater_depth_norim_frame (P : ℚ → ℚ → ℚ) (Zn : ℚ) (z d : List ℚ)
    (dkm : ℚ) (hdia : 0 < dkm) (i : ℕ) (hz : i < z.length) (hd : i < d.length)
    (hout : 0.9 * (dkm * 1000 / 2) < d.getD i 0) :
    (crater_depth P Zn z d dkm false).getD i 0 = z.getD i 0 := by
  rw [crater_depth_false_eq, applyNodes_getD _ z d i hz hd,
    if_neg (not_le.mpr (by linarith)), add_zero]

/-- Witness for `crater_depth_norim_frame`: one node at distance 1000 m
from the center of a 2 km rimless crater (boundary `0.9 * radius = 900`)
keeps its elevation. -/
theorem crater_depth_norim_frame_witness :
    (0 : ℚ) < 2 ∧ 0 < ([(5 : ℚ)]).length ∧ 0 < ([(1000 : ℚ)]).length ∧
      (0.9 : ℚ) * (2 * 1000 / 2) < ([(1000 : ℚ)]).getD 0 0 ∧
      (crater_depth (fun _ _ => 1) 1 [5] [1000] 2 false).getD 0 0 =
        ([(5 : ℚ)]).getD 0 0 :=
  ⟨by norm_num, by decide, by decide, by norm_num,
    crater_depth_norim_frame (fun _ _ => 1) 1 [5] [1000] 2 (by norm_num) 0
      (by decide) (by decide) (by norm_num)⟩

theorem crater_depth_length (P : ℚ → ℚ → ℚ) (Zn : ℚ) (z d : List ℚ) (dkm : ℚ)
    (rim : Bool) : (crater_depth P Zn z d dkm rim).length = z.length := by
  cases rim
  · rw [crater_depth_false_eq]; exact applyNodes_length _ z d
  · rw [crater_depth_true_eq]; exact applyNodes_length _ z d

/-- C6: because the inheritance parameter is fixed at `I = 1` and the inside
reference elevation equals the current elevation, the per-node delta added
by `crater_depth` does not depend on the elevation field: inside the crater
it is exactly `DH_in` (the `(E_ref_in - Z_in)` term vanishes), and outside
with `rim = true` the blend weight `min(1-I, DH_out/H2) = min(0, positive)`
is 0 (taking the abstract power strictly positive, as the real power of the
code is on these arguments), so the delta is exactly
`DH_out = H2*((2*distance)/Dm)^(-n)`; the right-hand sides mention only the
distance, diameter, and noise draw, never `z`. -/
theorem crater_depth_delta_independent (P : ℚ → ℚ → ℚ) (hP : ∀ x y, 0 < P x y)
    (Zn : ℚ) (z d : List ℚ) (dkm : ℚ) (i : ℕ) (hz : i < z.length)
    (hd : i < d.length) :
    ((crater_depth P Zn z d dkm true).getD i 0 - z.getD i 0 =
      (if d.getD i 0 ≤ dkm * 1000 / 2 then
        (crater_shape P (dkm * 1000)).H2 - (crater_shape P (dkm * 1000)).H1 +
          Zn * (crater_shape P (dkm * 1000)).H1 *
            P (2 * d.getD i 0 / (dkm * 1000)) (crater_shape P (dkm * 1000)).m
       else
        (crater_shape P (dkm * 1000)).H2 *
          P (2 * d.getD i 0 / (dkm * 1000)) (-(crater_shape P (dkm * 1000)).n))) ∧
    ((crater_depth P Zn z d dkm false).getD i 0 - z.getD i 0 =
      (if d.getD i 0 ≤ dkm * 1000 / 2 * 0.9 then
        (crater_shape P (dkm * 1000)).H2 - (crater_shape P (dkm * 1000)).H1 +
          (crater_shape P (dkm * 1000)).H1 *
            P (2 * d.getD i 0 / (dkm * 1000)) (crater_shape P (dkm * 1000)).m
       else 0)) := by
  constructor
  · rw [crater_depth_true_eq, applyNodes_getD _ z d i hz hd]
    by_cases hc : d.getD i 0 ≤ dkm * 1000 / 2
    · rw [if_pos hc, if_pos hc]; ring
    · rw [if_neg hc, if_neg hc]
      have hH2 := crater_shape_H2_pos P hP (dkm * 1000)
      have hp : 0 < P (2 * d.getD i 0 / (dkm * 1000))
          (-(crater_shape P (dkm * 1000)).n) := hP _ _
      rw [mul_div_cancel_left₀ _ (ne_of_gt hH2),
        show (1 : ℚ) - 1 = 0 by norm_num, min_eq_left hp.le]
      ring
  · rw [crater_depth_false_eq, applyNodes_getD _ z d i hz hd]
    by_cases hc : d.getD i 0 ≤ dkm * 1000 / 2 * 0.9
    · rw [if_pos hc, if_pos hc]; ring
    · rw [if_neg hc, if_neg hc]; ring

/-- Witness for `crater_depth_delta_independent`: constant power function 1
(positive), a 2 km crater, node 0 at distance 1 m; both deltas evaluate to
`1.93`. -/
theorem crater_depth_delta_independent_witness :
    (∀ x y : ℚ, 0 < (fun _ _ => (1 : ℚ)) x y) ∧
    (crater_depth (fun _ _ => (1 : ℚ)) 1 [0, 0] [1, 2000] 2 true).getD 0 0 -
        ([0, (0 : ℚ)]).getD 0 0 = 193 / 100 ∧
    (crater_depth (fun _ _ => (1 : ℚ)) 1 [0, 0] [1, 2000] 2 false).getD 0 0 -
        ([0, (0 : ℚ)]).getD 0 0 = 193 / 100 :=
  ⟨fun _ _ => one_pos,
   by
    rw [(crater_depth_delta_independent (fun _ _ => 1) (fun _ _ => one_pos) 1
      [0, 0] [1, 2000] 2 0 (by decide) (by decide)).1]
    norm_num [crater_shape],
   by
    rw [(crater_depth_delta_independent (fun _ _ => 1) (fun _ _ => one_pos) 1
      [0, 0] [1, 2000] 2 0 (by decide) (by decide)).2]
    norm_num [crater_shape]⟩

/-- C9: under any sequence of `crater_depth` applications (with or without
rim) the elevation field keeps its length (the node count), and each single
application is additive: the new field is the old field plus the per-node
increments `crater_delta`, never a replacement. -/
theorem crater_depth_additive_invariant :
    (∀ (P : ℚ → ℚ → ℚ) (Zn : ℚ) (z d : List ℚ) (dkm : ℚ) (rim : Bool),
        crater_depth P Zn z d dkm rim =
          List.zipWith (· + ·) z (crater_delta P Zn z d dkm rim)) ∧
    (∀ (P : ℚ → ℚ → ℚ) (z0 : List ℚ) (events : List (ℚ × ℚ × List ℚ × Bool)),
        (events.foldl
            (fun z e => crater_depth P e.1 z e.2.2.1 e.2.1 e.2.2.2) z0).length =
          z0.length) := by
  constructor
  · intro P Zn z d dkm rim
    cases rim
    · rw [crater_depth_false_eq, crater_delta_false_eq]
      exact applyNodes_eq_zipWith_deltaNodes _ _
        (fun zi di => by split_ifs <;> ring) z d
    · rw [crater_depth_true_eq, crater_delta_true_eq]
      exact applyNodes_eq_zipWith_deltaNodes _ _
        (fun zi di => by split_ifs <;> ring) z d
  · intro P z0 events
    induction events generalizing z0 with
    | nil => rfl
    | cons e es ih =>
      rw [List.foldl_cons, ih (crater_depth P e.1 z0 e.2.2.1 e.2.1 e.2.2.2)]
      exact crater_depth_length P e.1 z0 e.2.2.1 e.2.1 e.2.2.2

/-- C7 counterexample: no validation error exists in `crater_depth`.  With a
distance array of length 1 against a 2-node elevation field (a dimension
mismatch) the function still mutates node 0 — no `DimensionMismatch` is
raised before mutation — and a negative diameter (−1 km) also produces an
ordinary result instead of an `InvalidParameter` error. -/
theorem crater_depth_no_validation_counterexample :
    ([(1 : ℚ)]).length ≠ ([0, (5 : ℚ)]).length ∧
    crater_depth (fun _ _ => (1 : ℚ)) 1 [0, 5] [1] 1 false = [193 / 100, 5] ∧
    (crater_depth (fun _ _ => (1 : ℚ)) 1 [0, 5] [1] 1 false).getD 0 0 ≠
      ([0, (5 : ℚ)]).getD 0 0 ∧
    crater_depth (fun _ _ => (1 : ℚ)) 1 [0] [600] (-1) false = [0] :=
  ⟨by decide,
   by rw [crater_depth_false_eq]; norm_num [applyNodes, crater_shape],
   by rw [crater_depth_false_eq]; norm_num [applyNodes, crater_shape],
   by rw [crater_depth_false_eq]; norm_num [applyNodes, crater_shape]⟩

/-- C7 amended: `crater_depth` performs no input validation at all.  It is
a total function of its inputs: for every diameter (zero and negative ones
included) and every distance array (whatever its length) it returns an
elevation field of unchanged length, and nodes beyond the end of the
distance array are simply left untouched — no `InvalidParameter` or
`DimensionMismatch` error is ever raised. -/
theorem crater_depth_no_validation :
    (∀ (P : ℚ → ℚ → ℚ) (Zn : ℚ) (z d : List ℚ) (dkm : ℚ) (rim : Bool),
        (crater_depth P Zn z d dkm rim).length = z.length) ∧
    (∀ (P : ℚ → ℚ → ℚ) (Zn : ℚ) (z d : List ℚ) (dkm : ℚ) (rim : Bool) (i : ℕ),
        d.length ≤ i →
        (crater_depth P Zn z d dkm rim).getD i 0 = z.getD i 0) := by
  constructor
  · exact crater_depth_length
  · intro P Zn z d dkm rim i hi
    cases rim
    · rw [crater_depth_false_eq]; exact applyNodes_getD_beyond _ z d i hi
    · rw [crater_depth_true_eq]; exact applyNodes_getD_beyond _ z d i hi

/-- Witness for `crater_depth_no_validation`: the second conjunct applied at
node index 1 with a length-1 distance array. -/
theorem crater_depth_no_validation_witness :
    ([(1 : ℚ)]).length ≤ 1 ∧
    (crater_depth (fun _ _ => (1 : ℚ)) 1 [0, 5] [1] 1 false).getD 1 0 =
      ([0, (5 : ℚ)]).getD 1 0 :=
  ⟨by decide,
    crater_depth_no_validation.2 (fun _ _ => 1) 1 [0, 5] [1] 1 false 1 (by decide)⟩

theorem genLoop_exit (phi inv ln : ℚ → ℚ) (N1 N2 r A : ℚ) (p : Bool) (ts : ℚ)
    (rng : ℕ → ℚ) (fuel : ℕ) (t : ℚ) (i : ℕ) (acc : List ℚ) (h : ts < t) :
    genLoop phi inv ln N1 N2 r A p ts rng fuel t i acc = some acc := by
  cases fuel <;> simp only [genLoop, if_neg (not_le.mpr h)]

theorem genLoop_succ (phi inv ln : ℚ → ℚ) (N1 N2 r A : ℚ) (p : Bool) (ts : ℚ)
    (rng : ℕ → ℚ) (fuel : ℕ) (t : ℚ) (i : ℕ) (acc : List ℚ) (h : t ≤ ts) :
    genLoop phi inv ln N1 N2 r A p ts rng (fuel + 1) t i acc =
      genLoop phi inv ln N1 N2 r A p ts rng fuel
        (t + (if p then -(ln (rng (i + 1))) / (phi t * r * A)
              else 1 / (phi t * r * A)))
        (if p then i + 2 else i + 1) (acc ++ [inv (rng i * (N1 - N2) + N2)]) := by
  simp only [genLoop, if_pos h]

theorem genLoop_acc_length (phi inv ln : ℚ → ℚ) (N1 N2 r A : ℚ) (p : Bool)
    (ts : ℚ) (rng : ℕ → ℚ) :
    ∀ (fuel : ℕ) (t : ℚ) (i : ℕ) (acc l : List ℚ),
      genLoop phi inv ln N1 N2 r A p ts rng fuel t i acc = some l →
      acc.length ≤ l.length := by
  intro fuel
  induction fuel with
  | zero =>
    intro t i acc l h
    simp only [genLoop] at h
    split at h
    · exact absurd h (by simp)
    · rw [← Option.some.inj h]
  | succ f ih =>
    intro t i acc l h
    simp only [genLoop] at h
    split at h
    · have h2 := ih _ _ _ _ h
      calc acc.length ≤ acc.length + 1 := Nat.le_succ _
        _ = (acc ++ [inv (rng i * (N1 - N2) + N2)]).length := by simp
        _ ≤ l.length := by simpa using h2
    · rw [← Option.some.inj h]

/-- C3 amended: the generator loop runs `while t <= t_start` and so
terminates exactly when the simulated time `t` exceeds `t_start`; since the
condition is checked before the body, a zero-width time interval
(`t = t_start` initially) still executes the body once, so whenever the
loop terminates it returns a sequence with at least one diameter — not an
empty one. -/
theorem generate_terminates_nonempty (phi inv ln : ℚ → ℚ) (N1 N2 r A : ℚ)
    (p : Bool) (ts : ℚ) (rng : ℕ → ℚ) :
    (∀ (fuel : ℕ) (t : ℚ) (i : ℕ) (acc : List ℚ), ts < t →
        genLoop phi inv ln N1 N2 r A p ts rng fuel t i acc = some acc) ∧
    (∀ (fuel : ℕ) (t : ℚ) (l : List ℚ), t ≤ ts →
        genLoop phi inv ln N1 N2 r A p ts rng fuel t 0 [] = some l →
        0 < l.length) := by
  constructor
  · intro fuel t i acc h
    cases fuel <;> simp only [genLoop, if_neg (not_le.mpr h)]
  · intro fuel t l ht h
    cases fuel with
    | zero =>
      rw [show genLoop phi inv ln N1 N2 r A p ts rng 0 t 0 [] =
          if t ≤ ts then none else some [] from rfl, if_pos ht] at h
      exact absurd h (by simp)
    | succ f =>
      simp only [genLoop, if_pos ht] at h
      have h2 := genLoop_acc_length phi inv ln N1 N2 r A p ts rng _ _ _ _ _ h
      simpa using h2

/-- Witness for `generate_terminates_nonempty`: both conjuncts at concrete
inputs — immediate exit `t = 1 > t_start = 0` returns the accumulator, and
a zero-width run `t = t_start = 9/2` (non-Poisson, rate 1) terminates with
the single diameter `3/2`. -/
theorem generate_terminates_nonempty_witness :
    ((0 : ℚ) < 1 ∧
      genLoop (fun _ => 1) (fun y => y) (fun _ => 1) 1 2 1 1 false 0
        (fun _ => 1 / 2) 0 1 0 [] = some []) ∧
    ((9 : ℚ) / 2 ≤ 9 / 2 ∧
      genLoop (fun _ => 1) (fun y => y) (fun _ => 1) 1 2 1 1 false (9 / 2)
        (fun _ => 1 / 2) 2 (9 / 2) 0 [] = some [3 / 2] ∧
      0 < ([(3 : ℚ) / 2]).length) :=
  ⟨⟨by norm_num,
    (generate_terminates_nonempty (fun _ => 1) (fun y => y) (fun _ => 1) 1 2 1 1
        false 0 (fun _ => 1 / 2)).1 0 1 0 [] (by norm_num)⟩,
   by
    have he : genLoop (fun _ => (1 : ℚ)) (fun y => y) (fun _ => 1) 1 2 1 1 false
        (9 / 2) (fun _ => 1 / 2) 2 (9 / 2) 0 [] = some [3 / 2] := by
      rw [show (2 : ℕ) = 1 + 1 from rfl,
        genLoop_succ (fun _ => (1 : ℚ)) (fun y => y) (fun _ => 1) 1 2 1 1 false
          (9 / 2) (fun _ => 1 / 2) 1 (9 / 2) 0 [] (le_refl _)]
      norm_num
      exact genLoop_exit (fun _ => (1 : ℚ)) (fun y => y) (fun _ => 1) 1 2 1 1
        false (9 / 2) (fun _ => 1 / 2) 1 (11 / 2) 1 [3 / 2] (by norm_num)
    exact ⟨le_refl _, he,
      (generate_terminates_nonempty (fun _ => 1) (fun y => y) (fun _ => 1) 1 2 1 1
          false (9 / 2) (fun _ => 1 / 2)).2 2 (9 / 2) [3 / 2] (le_refl _) he⟩⟩

theorem generate_CSFD_snd (pfEval : ℚ → ℚ) (pf_range : ℚ × ℚ) (phi ln : ℚ → ℚ)
    (inv : ℚ × ℚ → ℚ → ℚ) (ti : ℚ × ℚ) (si : Option (ℚ × ℚ)) (A cs : ℚ)
    (p : Bool) (rng : ℕ → ℚ) (fuel : ℕ) :
    (generate_CSFD_from_production_function pfEval pf_range phi ln inv ti si A cs
        p rng fuel).2 =
      genLoop phi (inv (csfd_diameter_range pf_range cs si).1) ln
        (pfEval (csfd_diameter_range pf_range cs si).1.1)
        (pfEval (csfd_diameter_range pf_range cs si).1.2)
        (pfEval (csfd_diameter_range pf_range cs si).1.1 / pfEval 1) A p ti.1 rng
        fuel ti.2 0 [] := rfl

/-- C3 counterexample: the zero-width time interval `[9/2, 9/2]` does not
produce an empty diameter sequence — the loop body executes once (the
`while` condition `t <= t_start` holds at entry) and the generator returns
the one-element list `[3/2]`. -/
theorem generate_zero_width_counterexample :
    (generate_CSFD_from_production_function (fun x => x) (0, 100) (fun _ => 1)
        (fun _ => 1) (fun _ y => y) (9 / 2, 9 / 2) (some (1, 2)) 1 1 false
        (fun _ => 1 / 2) 2).2 = some [3 / 2] ∧
    some [(3 : ℚ) / 2] ≠ some ([] : List ℚ) := by
  constructor
  · rw [generate_CSFD_snd]
    norm_num [csfd_diameter_range]
    rw [show (2 : ℕ) = 1 + 1 from rfl,
      genLoop_succ (fun _ => (1 : ℚ)) (fun y => y) (fun _ => 1) 1 2 1 1 false
        (9 / 2) (fun _ => 1 / 2) 1 (9 / 2) 0 [] (le_refl _)]
    norm_num
    exact genLoop_exit (fun _ => (1 : ℚ)) (fun y => y) (fun _ => 1) 1 2 1 1
      false (9 / 2) (fun _ => 1 / 2) 1 (11 / 2) 1 [3 / 2] (by norm_num)
  · simp

/-- C5: every iteration of the generator loop draws a fresh uniform sample
`u = rng i`, targets the cumulative value `y = u*(N[1]-N[2]) + N[2]`,
inverts it to a diameter, computes the instantaneous rate
`lambda = phi(t) * N1_ratio * Area`, and advances time by
`dt = -ln(u2)/lambda` with a fresh `u2 = rng (i+1)` when `poisson` is true
and by `dt = 1/lambda` otherwise. -/
theorem genLoop_iteration_formulas (phi inv ln : ℚ → ℚ)
    (N1 N2 N1_ratio Area : ℚ) (poisson : Bool) (ts : ℚ) (rng : ℕ → ℚ)
    (fuel : ℕ) (t : ℚ) (i : ℕ) (acc : List ℚ) (h : t ≤ ts) :
    genLoop phi inv ln N1 N2 N1_ratio Area poisson ts rng (fuel + 1) t i acc =
      genLoop phi inv ln N1 N2 N1_ratio Area poisson ts rng fuel
        (t + (if poisson then -(ln (rng (i + 1))) / (phi t * N1_ratio * Area)
              else 1 / (phi t * N1_ratio * Area)))
        (if poisson then i + 2 else i + 1)
        (acc ++ [inv (rng i * (N1 - N2) + N2)]) := by
  simp only [genLoop, if_pos h]

/-- Witness for `genLoop_iteration_formulas` at a concrete Poisson
iteration with `t = 0 ≤ t_start = 1`. -/
theorem genLoop_iteration_formulas_witness :
    (0 : ℚ) ≤ 1 ∧
    genLoop (fun _ => 1) (fun y => y) (fun _ => 1) 1 2 1 1 true 1
        (fun _ => 1 / 2) (0 + 1) 0 0 [] =
      genLoop (fun _ => 1) (fun y => y) (fun _ => 1) 1 2 1 1 true 1
        (fun _ => 1 / 2) 0
        (0 + (if true then -(1 : ℚ) / (1 * 1 * 1) else 1 / (1 * 1 * 1)))
        (if true then 0 + 2 else 0 + 1) ([] ++ [1 / 2 * (1 - 2) + 2]) :=
  ⟨by norm_num,
    genLoop_iteration_formulas (fun _ => 1) (fun y => y) (fun _ => 1) 1 2 1 1
      true 1 (fun _ => 1 / 2) 0 0 0 [] (by norm_num)⟩

/-- C8: when `size_interval` is null the diameter range defaults to
`[cell_size, production_function.range[1]]` and no warning is set; an
explicit interval sets the non-fatal warning flag exactly when it lies
outside the calibrated range, and the generated diameter sequence is the
loop's output regardless of the flag (a warning, never a failure). -/
theorem csfd_setup_default_and_warning :
    (∀ (pf_range : ℚ × ℚ) (cs : ℚ),
        csfd_diameter_range pf_range cs none = ((cs, pf_range.2), false)) ∧
    (∀ (pf_range : ℚ × ℚ) (cs : ℚ) (r : ℚ × ℚ),
        (csfd_diameter_range pf_range cs (some r)).1 = r ∧
        ((csfd_diameter_range pf_range cs (some r)).2 = true ↔
          (r.1 < pf_range.1 ∨ r.2 > pf_range.2))) ∧
    (∀ (pfEval : ℚ → ℚ) (pf_range : ℚ × ℚ) (phi ln : ℚ → ℚ)
        (inv : ℚ × ℚ → ℚ → ℚ) (ti : ℚ × ℚ) (si : Option (ℚ × ℚ)) (A cs : ℚ)
        (p : Bool) (rng : ℕ → ℚ) (fuel : ℕ),
        (generate_CSFD_from_production_function pfEval pf_range phi ln inv ti si
            A cs p rng fuel).2 =
          genLoop phi (inv (csfd_diameter_range pf_range cs si).1) ln
            (pfEval (csfd_diameter_range pf_range cs si).1.1)
            (pfEval (csfd_diameter_range pf_range cs si).1.2)
            (pfEval (csfd_diameter_range pf_range cs si).1.1 / pfEval 1) A p ti.1
            rng fuel ti.2 0 []) := by
  refine ⟨fun _ _ => rfl, fun pf_range cs r => ⟨rfl, ?_⟩,
    fun pfEval pf_range phi ln inv ti si A cs p rng fuel =>
      generate_CSFD_snd pfEval pf_range phi ln inv ti si A cs p rng fuel⟩
  show (if r.1 < pf_range.1 ∨ r.2 > pf_range.2 then true else false) = true ↔ _
  split_ifs with h <;> simp [h]

/-- C10: determinism under a fixed random source.  Two runs of the
generator loop whose random streams agree on every index the loop can
consume produce the same diameter sequence, and `crater_depth` applied to
two copies of the same elevation field with the same diameter, distance
array, rim flag and noise draw produces identical fields. -/
theorem fixed_seed_determinism :
    (∀ (phi inv ln : ℚ → ℚ) (N1 N2 r A : ℚ) (p : Bool) (ts : ℚ)
        (rng1 rng2 : ℕ → ℚ) (fuel : ℕ) (t : ℚ) (i : ℕ) (acc : List ℚ),
        (∀ j, j < i + 2 * fuel → rng1 j = rng2 j) →
        genLoop phi inv ln N1 N2 r A p ts rng1 fuel t i acc =
          genLoop phi inv ln N1 N2 r A p ts rng2 fuel t i acc) ∧
    (∀ (P : ℚ → ℚ → ℚ) (Zn : ℚ) (z1 z2 d : List ℚ) (dkm : ℚ) (rim : Bool),
        z1 = z2 →
        crater_depth P Zn z1 d dkm rim = crater_depth P Zn z2 d dkm rim) := by
  constructor
  · intro phi inv ln N1 N2 r A p ts rng1 rng2 fuel
    induction fuel with
    | zero => intro t i acc _; simp only [genLoop]
    | succ f ih =>
      intro t i acc hagree
      by_cases hc : t ≤ ts
      · rw [genLoop_succ phi inv ln N1 N2 r A p ts rng1 f t i acc hc,
          genLoop_succ phi inv ln N1 N2 r A p ts rng2 f t i acc hc]
        have h1 : rng1 i = rng2 i := hagree i (by omega)
        have h2 : rng1 (i + 1) = rng2 (i + 1) := hagree (i + 1) (by omega)
        simp only [h1, h2]
        refine ih _ _ _ (fun j hj => hagree j ?_)
        rcases p with _ | _ <;> simp only [if_true, if_false,
          Bool.false_eq_true] at hj <;> omega
      · rw [genLoop_exit phi inv ln N1 N2 r A p ts rng1 (f + 1) t i acc
            (not_le.mp hc),
          genLoop_exit phi inv ln N1 N2 r A p ts rng2 (f + 1) t i acc
            (not_le.mp hc)]
  · intro P Zn z1 z2 d dkm rim h
    rw [h]

/-- Witness for `fixed_seed_determinism`: identical streams trivially agree
on all consumed indices; identical copies of a field give identical
results. -/
theorem fixed_seed_determinism_witness :
    ((∀ j : ℕ, j < 0 + 2 * 1 → (fun _ => (0 : ℚ)) j = (fun _ => (0 : ℚ)) j) ∧
      genLoop (fun _ => 1) (fun y => y) (fun _ => 1) 1 2 1 1 true 1
          (fun _ => (0 : ℚ)) 1 0 0 [] =
        genLoop (fun _ => 1) (fun y => y) (fun _ => 1) 1 2 1 1 true 1
          (fun _ => (0 : ℚ)) 1 0 0 []) ∧
    ([(0 : ℚ)] = [(0 : ℚ)] ∧
      crater_depth (fun _ _ => 1) 1 [0] [1] 1 true =
        crater_depth (fun _ _ => 1) 1 [0] [1] 1 true) :=
  ⟨⟨fun _ _ => rfl,
    fixed_seed_determinism.1 (fun _ => 1) (fun y => y) (fun _ => 1) 1 2 1 1 true
      1 (fun _ => 0) (fun _ => 0) 1 0 0 [] (fun _ _ => rfl)⟩,
   ⟨rfl,
    fixed_seed_determinism.2 (fun _ _ => 1) 1 [0] [0] [1] 1 true rfl⟩⟩

theorem invLoopAux_succ (f : ℚ → ℚ) (l tol : ℚ) (fuel count : ℕ) (xr : ℚ × ℚ) :
    invLoopAux f l tol (fuel + 1) count xr =
      (match fancyPair (linspace9 xr.2 xr.1)
          (npSearchsorted ((linspace9 xr.2 xr.1).map f) l) with
      | none => none
      | some xr2 =>
        if |f (npInterp l ((linspace9 xr.2 xr.1).map f) (linspace9 xr.2 xr.1)) -
              l| < tol ∨ count + 1 > 99 then
          some (npInterp l ((linspace9 xr.2 xr.1).map f) (linspace9 xr.2 xr.1),
            count + 1)
        else invLoopAux f l tol fuel (count + 1) xr2) := rfl

theorem invLoopAux_facts (f : ℚ → ℚ) (l tol : ℚ) :
    ∀ (fuel count : ℕ) (xr : ℚ × ℚ) (r : ℚ × ℕ), count ≤ 99 →
      invLoopAux f l tol fuel count xr = some r →
      count < r.2 ∧ r.2 ≤ 100 ∧ (r.2 ≤ 99 → |f r.1 - l| < tol) := by
  intro fuel
  induction fuel with
  | zero => intro count xr r _ h; simp [invLoopAux] at h
  | succ fl ih =>
    intro count xr r hcount h
    simp only [invLoopAux] at h
    split at h
    · exact absurd h (by simp)
    · split at h
      next hb =>
        obtain rfl := Option.some.inj h
        refine ⟨Nat.lt_succ_self _, by omega, fun h99 => ?_⟩
        rcases hb with htol | hgt
        · exact htol
        · exact absurd hgt (by omega)
      next hb =>
        have hb2 := not_or.mp hb
        have hc2 : count + 1 ≤ 99 := by
          have := hb2.2; omega
        have h3 := ih (count + 1) _ r hc2 h
        exact ⟨by have := h3.1; omega, h3.2.1, h3.2.2⟩

/-- C4 amended: the inverter's iteration loop stops when
`|y1 - log10(target_y)| < tol` or after the fixed iteration cap of 100
iterations (the loop breaks once its counter exceeds 99), so it always
terminates in a bounded number of iterations; an early stop means the
tolerance was met, non-convergence is not an error, and the function
returns `10^x`, the estimate at termination. -/
theorem inverse_loop_bounded (pfEval log10 tenPow : ℚ → ℚ) (irange : ℚ × ℚ)
    (y tol : ℚ) (r : ℚ × ℕ)
    (h : invLoopAux (fun x => log10 (pfEval (tenPow x))) (log10 y) tol 100 0
        (log10 irange.1, log10 irange.2) = some r) :
    0 < r.2 ∧ r.2 ≤ 100 ∧
    (r.2 ≤ 99 → |log10 (pfEval (tenPow r.1)) - log10 y| < tol) ∧
    crater_production_function_inverse pfEval log10 tenPow irange y tol =
      some (tenPow r.1) := by
  have h2 := invLoopAux_facts (fun x => log10 (pfEval (tenPow x))) (log10 y) tol
    100 0 (log10 irange.1, log10 irange.2) r (by omega) h
  refine ⟨h2.1, h2.2.1, h2.2.2, ?_⟩
  simp only [crater_production_function_inverse]
  rw [h]
  rfl

/-- Witness for `inverse_loop_bounded`: with a constant-zero log-log curve,
target log 0 and tolerance 1, the loop converges on its first iteration and
the inverse returns `10^x` for `x = 0`. -/
theorem inverse_loop_bounded_witness :
    invLoopAux (fun _ => (0 : ℚ)) 0 1 100 0 (0, 0) = some (0, 1) ∧
    (0 < 1 ∧ (1 : ℕ) ≤ 100 ∧ ((1 : ℕ) ≤ 99 → |(0 : ℚ) - 0| < 1) ∧
      crater_production_function_inverse (fun t => t) (fun _ => 0) (fun t => t)
          (1, 1) 5 1 = some 0) := by
  have hr9 : List.range 9 = [0, 1, 2, 3, 4, 5, 6, 7, 8] := by decide
  have hls : linspace9 0 0 = [0, 0, 0, 0, 0, 0, 0, 0, 0] := by
    norm_num [linspace9, hr9]
  have hEval : invLoopAux (fun _ => (0 : ℚ)) 0 1 100 0 (0, 0) = some (0, 1) := by
    rw [show (100 : ℕ) = 99 + 1 from rfl, invLoopAux_succ]
    norm_num [hls, npInterp, npInterpGo, npSearchsorted, fancyPair, List.getD]
  exact ⟨hEval,
    inverse_loop_bounded (fun t => t) (fun _ => 0) (fun t => t) (1, 1) 5 1 (0, 1)
      hEval⟩

theorem invStepA (fuel count : ℕ) (h : count + 1 ≤ 99) :
    invLoopAux (fun _ => (0 : ℚ)) (-1) (1 / 1000000) (fuel + 1) count (1, 0) =
      invLoopAux (fun _ => (0 : ℚ)) (-1) (1 / 1000000) fuel (count + 1) (0, 1) := by
  have hr9 : List.range 9 = [0, 1, 2, 3, 4, 5, 6, 7, 8] := by decide
  have hls : linspace9 0 1 =
      [0, 1 / 8, 1 / 4, 3 / 8, 1 / 2, 5 / 8, 3 / 4, 7 / 8, 1] := by
    norm_num [linspace9, hr9]
  rw [invLoopAux_succ]
  norm_num [hls, npInterp, npInterpGo, npSearchsorted, fancyPair, List.getD]
  intro hgt
  omega

theorem invStepB (fuel count : ℕ) (h : count + 1 ≤ 99) :
    invLoopAux (fun _ => (0 : ℚ)) (-1) (1 / 1000000) (fuel + 1) count (0, 1) =
      invLoopAux (fun _ => (0 : ℚ)) (-1) (1 / 1000000) fuel (count + 1) (1, 0) := by
  have hr9 : List.range 9 = [0, 1, 2, 3, 4, 5, 6, 7, 8] := by decide
  have hls : linspace9 1 0 =
      [1, 7 / 8, 3 / 4, 5 / 8, 1 / 2, 3 / 8, 1 / 4, 1 / 8, 0] := by
    norm_num [linspace9, hr9]
  rw [invLoopAux_succ]
  norm_num [hls, npInterp, npInterpGo, npSearchsorted, fancyPair, List.getD]
  intro hgt
  omega

theorem invBreak (fuel : ℕ) :
    invLoopAux (fun _ => (0 : ℚ)) (-1) (1 / 1000000) (fuel + 1) 99 (0, 1) =
      some (1, 100) := by
  have hr9 : List.range 9 = [0, 1, 2, 3, 4, 5, 6, 7, 8] := by decide
  have hls : linspace9 1 0 =
      [1, 7 / 8, 3 / 4, 5 / 8, 1 / 2, 3 / 8, 1 / 4, 1 / 8, 0] := by
    norm_num [linspace9, hr9]
  rw [invLoopAux_succ]
  norm_num [hls, npInterp, npInterpGo, npSearchsorted, fancyPair, List.getD]

theorem invChain : ∀ (m count : ℕ), count + 2 * m = 98 →
    invLoopAux (fun _ => (0 : ℚ)) (-1) (1 / 1000000) (2 * m + 2) count (1, 0) =
      some (1, 100) := by
  intro m
  induction m with
  | zero =>
    intro count h
    have hc : count = 98 := by omega
    subst hc
    rw [show 2 * 0 + 2 = 1 + 1 from rfl, invStepA 1 98 (by omega),
      show (1 : ℕ) = 0 + 1 from rfl, invBreak 0]
  | succ m ih =>
    intro count h
    rw [show 2 * (m + 1) + 2 = (2 * m + 2 + 1) + 1 by ring,
      invStepA (2 * m + 2 + 1) count (by omega),
      invStepB (2 * m + 2) (count + 1) (by omega)]
    exact ih (count + 2) (by omega)

/-- C4 counterexample: the cap is not 99 iterations.  On the constant
log-log curve 0 with target log value −1 (never within tolerance) and
initial bracket `(1, 0)`, the loop executes exactly 100 iterations before
breaking (the break condition is `count > 99`), exceeding the claimed cap
of 99. -/
theorem inverse_loop_cap_counterexample :
    invLoopAux (fun _ => (0 : ℚ)) (-1) (1 / 1000000) 100 0 (1, 0) =
      some (1, 100) ∧ ¬ ((100 : ℕ) ≤ 99) := by
  constructor
  · rw [show (100 : ℕ) = 2 * 49 + 2 from rfl]
    exact invChain 49 0 (by norm_num)
  · omega

end Cratering
